import Mathlib

/-
Shallow embedding of the token-factory storage layer:
  src/contracts/token-factory/src/storage.rs
  src/contracts/token-factory/src/types.rs

Modelling choices:
* A soroban `Address` is modelled as a `Nat` (an opaque identifier with
  decidable equality); a soroban `String` as a Lean `String`.
* `i128` values are modelled as `Int`.  `i128::checked_sub` is modelled
  exactly: it returns `none` iff the mathematical difference leaves the
  i128 range `[-2^127, 2^127 - 1]` (this is the only place where the
  machine width is semantically relevant to the functions below; the
  plain `+=` updates are modelled as exact integer arithmetic, matching
  the in-range behaviour of the source, whose contract profile traps on
  overflow).  `u32` counters are modelled as `Nat`.
* The flat key-value instance storage (`DataKey -> value`) is modelled as
  the structure `Store`, one field per `DataKey` constructor; `Token(i)`
  and `BurnRecord(i)` become total maps `Nat -> Option _` (a key that was
  never written holds `none`).
* A Rust panic (the `.expect(...)` in `update_token_supply`) aborts the
  whole invocation with no write persisted, so `update_token_supply`
  returns `Option Store`, with `none` for the aborted execution.
* The admin / treasury / fee accessors of storage.rs are out of scope for
  the properties below; their keys are kept in `Store` for layout
  fidelity but no operation here touches them.
-/

/-- `TokenInfo` from src/contracts/token-factory/src/types.rs (lines 34-48). -/
structure TokenInfo where
  address : Nat
  creator : Nat
  name : String
  symbol : String
  decimals : Nat
  total_supply : Int
  initial_supply : Int
  total_burned : Int
  burn_count : Nat
  metadata_uri : Option String
  created_at : Nat
deriving DecidableEq

/-- `BurnRecord` from src/contracts/token-factory/src/types.rs (lines 50-59). -/
structure BurnRecord where
  token_address : Nat
  «from» : Nat
  amount : Int
  burned_by : Nat
  timestamp : Nat
  is_admin_burn : Bool
deriving DecidableEq

/-- The flat instance storage: one field per `DataKey` constructor of
types.rs (lines 61-72).  `Token(u32)` and `BurnRecord(u32)` are the two
indexed key families. -/
structure Store where
  admin : Option Nat
  treasury : Option Nat
  base_fee : Option Int
  metadata_fee : Option Int
  token_count : Option Nat
  token : Nat → Option TokenInfo
  burn_record : Nat → Option BurnRecord
  burn_count : Option Nat

/-- `env.storage().instance().set(&DataKey::Token(i), &t)`. -/
def Store.setToken (s : Store) (i : Nat) (t : TokenInfo) : Store :=
  { s with token := fun j => if j = i then some t else s.token j }

/-- `env.storage().instance().set(&DataKey::BurnRecord(i), &r)`. -/
def Store.setBurnRecord (s : Store) (i : Nat) (r : BurnRecord) : Store :=
  { s with burn_record := fun j => if j = i then some r else s.burn_record j }

/-- `env.storage().instance().set(&DataKey::BurnCount, &c)`. -/
def Store.setBurnCount (s : Store) (c : Nat) : Store :=
  { s with burn_count := some c }

/-- storage.rs lines 59-64: `get_token_count`, `unwrap_or(0)`. -/
def get_token_count (s : Store) : Nat :=
  s.token_count.getD 0

/-- storage.rs lines 66-68: `get_token_info`. -/
def get_token_info (s : Store) (i : Nat) : Option TokenInfo :=
  s.token i

/-- storage.rs lines 103-108: `get_global_burn_count`, `unwrap_or(0)`. -/
def get_global_burn_count (s : Store) : Nat :=
  s.burn_count.getD 0

/-- The loop `for i in 0..token_count` of `get_token_info_by_address`
(storage.rs lines 158-168), scanning indices `j, j+1, ...` with `n` indices
left to visit, returning the first record whose `address` matches. -/
def findTokenAux (f : Nat → Option TokenInfo) (a : Nat) : Nat → Nat → Option TokenInfo
  | _, 0 => none
  | j, n + 1 =>
    match f j with
    | some ti => if ti.address = a then some ti else findTokenAux f a (j + 1) n
    | none => findTokenAux f a (j + 1) n

/-- The loop `for i in 0..token_count` of `get_token_index`
(storage.rs lines 171-181), identical scan but returning the index. -/
def findIndexAux (f : Nat → Option TokenInfo) (a : Nat) : Nat → Nat → Option Nat
  | _, 0 => none
  | j, n + 1 =>
    match f j with
    | some ti => if ti.address = a then some j else findIndexAux f a (j + 1) n
    | none => findIndexAux f a (j + 1) n

/-- storage.rs lines 158-168: `get_token_info_by_address`. -/
def get_token_info_by_address (s : Store) (a : Nat) : Option TokenInfo :=
  findTokenAux s.token a 0 (get_token_count s)

/-- storage.rs lines 171-181: `get_token_index`. -/
def get_token_index (s : Store) (a : Nat) : Option Nat :=
  findIndexAux s.token a 0 (get_token_count s)

/-- storage.rs lines 85-91: `get_total_burned`. -/
def get_total_burned (s : Store) (a : Nat) : Int :=
  match get_token_info_by_address s a with
  | some ti => ti.total_burned
  | none => 0

/-- storage.rs lines 94-100: `get_burn_count`. -/
def get_burn_count (s : Store) (a : Nat) : Nat :=
  match get_token_info_by_address s a with
  | some ti => ti.burn_count
  | none => 0

/-- storage.rs lines 111-126: `increment_burn_count`.  On a hit, the
record's `burn_count` and `total_burned` are bumped, the record is written
back at `get_token_index`, and the global burn count is incremented; on a
miss the whole body is skipped. -/
def increment_burn_count (s : Store) (a : Nat) (amount : Int) : Store :=
  match get_token_info_by_address s a with
  | some token_info =>
    let updated : TokenInfo :=
      { token_info with
          burn_count := token_info.burn_count + 1
          total_burned := token_info.total_burned + amount }
    let s1 : Store :=
      match get_token_index s a with
      | some idx => s.setToken idx updated
      | none => s
    s1.setBurnCount (get_global_burn_count s1 + 1)
  | none => s

/-- storage.rs lines 129-132: `add_burn_record`, writes the record at the
index `get_global_burn_count` (and writes nothing else). -/
def add_burn_record (s : Store) (r : BurnRecord) : Store :=
  s.setBurnRecord (get_global_burn_count s) r

/-- storage.rs lines 135-137: `get_burn_record`. -/
def get_burn_record (s : Store) (i : Nat) : Option BurnRecord :=
  s.burn_record i

/-- storage.rs lines 140-142: `get_burn_record_count`. -/
def get_burn_record_count (s : Store) : Nat :=
  get_global_burn_count s

/-- Exact model of `i128::checked_sub`: `none` iff the mathematical
difference falls outside `[-2^127, 2^127 - 1]`. -/
def i128_checked_sub (a b : Int) : Option Int :=
  if -(2 ^ 127) ≤ a - b ∧ a - b ≤ 2 ^ 127 - 1 then some (a - b) else none

/-- storage.rs lines 145-155: `update_token_supply`.  `none` is the
aborted execution (the `.expect("Supply cannot go below zero")` fired,
nothing was written); `some s'` is a completed execution leaving store
`s'`. -/
def update_token_supply (s : Store) (a : Nat) (delta : Int) : Option Store :=
  match get_token_info_by_address s a with
  | some token_info =>
    match i128_checked_sub token_info.total_supply delta with
    | some v =>
      let updated : TokenInfo := { token_info with total_supply := v }
      some (match get_token_index s a with
            | some idx => s.setToken idx updated
            | none => s)
    | none => none
  | none => some s

/-- A store with every key unset. -/
def emptyStore : Store :=
  { admin := none, treasury := none, base_fee := none, metadata_fee := none
    token_count := none, token := fun _ => none
    burn_record := fun _ => none, burn_count := none }

/-- A registered token at slot 0 of the concrete stores below. -/
def tokA : TokenInfo :=
  { address := 7, creator := 1, name := "TokenA", symbol := "TKA"
    decimals := 6, total_supply := 5, initial_supply := 100
    total_burned := 10, burn_count := 2, metadata_uri := none
    created_at := 0 }

/-- A second registered token, at slot 1 of `twoTokenStore`. -/
def tokB : TokenInfo :=
  { address := 9, creator := 1, name := "TokenB", symbol := "TKB"
    decimals := 6, total_supply := 50, initial_supply := 50
    total_burned := 0, burn_count := 0, metadata_uri := none
    created_at := 0 }

/-- A concrete burn record used in counterexamples and witnesses. -/
def recX : BurnRecord :=
  { token_address := 7, «from» := 2, amount := 3, burned_by := 1
    timestamp := 11, is_admin_burn := false }

/-- A second concrete burn record. -/
def recY : BurnRecord :=
  { token_address := 9, «from» := 4, amount := 8, burned_by := 1
    timestamp := 12, is_admin_burn := true }

/-- A store holding exactly the token `tokA` at slot 0, with no burns yet. -/
def oneTokenStore : Store :=
  { admin := none, treasury := none, base_fee := none, metadata_fee := none
    token_count := some 1, token := fun i => if i = 0 then some tokA else none
    burn_record := fun _ => none, burn_count := some 0 }

/-- A store holding `tokA` at slot 0 and `tokB` at slot 1, with one burn
record already on the ledger. -/
def twoTokenStore : Store :=
  { admin := none, treasury := none, base_fee := none, metadata_fee := none
    token_count := some 2
    token := fun i => if i = 0 then some tokA else if i = 1 then some tokB else none
    burn_record := fun i => if i = 0 then some recX else none
    burn_count := some 1 }

example : get_token_info_by_address oneTokenStore 7 = some tokA := rfl
example : get_token_info_by_address oneTokenStore 9 = none := rfl
example : get_token_index twoTokenStore 9 = some 1 := rfl
example : get_global_burn_count emptyStore = 0 := rfl

/-!  Scan lemmas: the joint behaviour of the two identical loops of
`get_token_info_by_address` and `get_token_index`. -/

/-- Either both scans fail and no visited slot matches, or both succeed on
the same, lowest, matching slot. -/
theorem findAux_rel (f : Nat → Option TokenInfo) (a : Nat) :
    ∀ n j,
      (findIndexAux f a j n = none ∧ findTokenAux f a j n = none ∧
        ∀ k, j ≤ k → k < j + n → ∀ t, f k = some t → t.address ≠ a) ∨
      (∃ i ti, findIndexAux f a j n = some i ∧ findTokenAux f a j n = some ti ∧
        f i = some ti ∧ ti.address = a ∧ j ≤ i ∧ i < j + n ∧
        ∀ m, j ≤ m → m < i → ∀ t, f m = some t → t.address ≠ a) := by
  intro n
  induction n with
  | zero =>
    intro j
    exact Or.inl ⟨rfl, rfl, fun k hk1 hk2 => absurd hk2 (by omega)⟩
  | succ n ih =>
    intro j
    cases hf : f j with
    | some ti =>
      by_cases ha : ti.address = a
      · refine Or.inr ⟨j, ti, ?_, ?_, hf, ha, le_refl j, by omega, ?_⟩
        · simp [findIndexAux, hf, ha]
        · simp [findTokenAux, hf, ha]
        · intro m hm1 hm2
          exact absurd hm2 (by omega)
      · rcases ih (j + 1) with ⟨h1, h2, h3⟩ | ⟨i, ti', h1, h2, h3, h4, h5, h6, h7⟩
        · refine Or.inl ⟨?_, ?_, ?_⟩
          · simp [findIndexAux, hf, ha, h1]
          · simp [findTokenAux, hf, ha, h2]
          · intro k hk1 hk2 t ht
            rcases Nat.eq_or_lt_of_le hk1 with hk | hk
            · subst hk
              rw [hf] at ht
              cases ht
              exact ha
            · exact h3 k hk (by omega) t ht
        · refine Or.inr ⟨i, ti', ?_, ?_, h3, h4, by omega, by omega, ?_⟩
          · simp [findIndexAux, hf, ha, h1]
          · simp [findTokenAux, hf, ha, h2]
          · intro m hm1 hm2 t ht
            rcases Nat.eq_or_lt_of_le hm1 with hm | hm
            · subst hm
              rw [hf] at ht
              cases ht
              exact ha
            · exact h7 m hm hm2 t ht
    | none =>
      rcases ih (j + 1) with ⟨h1, h2, h3⟩ | ⟨i, ti', h1, h2, h3, h4, h5, h6, h7⟩
      · refine Or.inl ⟨?_, ?_, ?_⟩
        · simp [findIndexAux, hf, h1]
        · simp [findTokenAux, hf, h2]
        · intro k hk1 hk2 t ht
          rcases Nat.eq_or_lt_of_le hk1 with hk | hk
          · subst hk
            rw [hf] at ht
            cases ht
          · exact h3 k hk (by omega) t ht
      · refine Or.inr ⟨i, ti', ?_, ?_, h3, h4, by omega, by omega, ?_⟩
        · simp [findIndexAux, hf, h1]
        · simp [findTokenAux, hf, h2]
        · intro m hm1 hm2 t ht
          rcases Nat.eq_or_lt_of_le hm1 with hm | hm
          · subst hm
            rw [hf] at ht
            cases ht
          · exact h7 m hm hm2 t ht

/-- A successful record lookup agrees with the index lookup: both name the
lowest matching slot. -/
theorem find_some_spec (s : Store) (a : Nat) (ti : TokenInfo)
    (h : get_token_info_by_address s a = some ti) :
    ∃ i, get_token_index s a = some i ∧ get_token_info s i = some ti ∧
      ti.address = a ∧ i < get_token_count s ∧
      ∀ m, m < i → ∀ t, get_token_info s m = some t → t.address ≠ a := by
  rcases findAux_rel s.token a (get_token_count s) 0 with ⟨_, h2, _⟩ |
    ⟨i, ti', h1, h2, h3, h4, _, h6, h7⟩
  · rw [get_token_info_by_address] at h
    rw [h] at h2
    cases h2
  · rw [get_token_info_by_address] at h
    rw [h] at h2
    cases h2
    exact ⟨i, h1, h3, h4, by omega, fun m hm t ht => h7 m (Nat.zero_le m) hm t ht⟩

/-- A failed record lookup means no slot in range matches. -/
theorem find_none_iff (s : Store) (a : Nat) :
    get_token_info_by_address s a = none ↔
      ∀ i, i < get_token_count s → ∀ t, get_token_info s i = some t → t.address ≠ a := by
  constructor
  · intro h
    rcases findAux_rel s.token a (get_token_count s) 0 with ⟨_, _, h3⟩ |
      ⟨i, ti', _, h2, _, _, _, _, _⟩
    · intro i hi t ht
      exact h3 i (Nat.zero_le i) (by omega) t ht
    · rw [get_token_info_by_address] at h
      rw [h] at h2
      cases h2
  · intro hno
    rcases findAux_rel s.token a (get_token_count s) 0 with ⟨_, h2, _⟩ |
      ⟨i, ti', _, _, h3, h4, _, h6, _⟩
    · exact h2
    · exact absurd h4 (hno i (by omega) ti' h3)

/-- Scanning for `a` after overwriting the lowest `a`-matching slot with a
record that still has address `a` returns the new record. -/
theorem findTokenAux_update_first (f : Nat → Option TokenInfo) (a idx : Nat)
    (u : TokenInfo) (hu : u.address = a) :
    ∀ n j, j ≤ idx → idx < j + n →
      (∀ m, j ≤ m → m < idx → ∀ t, f m = some t → t.address ≠ a) →
      findTokenAux (fun k => if k = idx then some u else f k) a j n = some u := by
  intro n
  induction n with
  | zero =>
    intro j h1 h2 _
    exact absurd h2 (by omega)
  | succ n ih =>
    intro j h1 h2 hmin
    by_cases hj : j = idx
    · subst hj
      simp [findTokenAux, hu]
    · have hlt : j < idx := by omega
      have hstep : ∀ r, findTokenAux (fun k => if k = idx then some u else f k) a (j + 1) n = r →
          findTokenAux (fun k => if k = idx then some u else f k) a j (n + 1) = r := by
        intro r hr
        cases hf : f j with
        | some t =>
          have : t.address ≠ a := hmin j (le_refl j) hlt t hf
          simp [findTokenAux, hj, hf, this, hr]
        | none =>
          simp [findTokenAux, hj, hf, hr]
      exact hstep _ (ih (j + 1) (by omega) (by omega)
        (fun m hm1 hm2 t ht => hmin m (by omega) hm2 t ht))

/-- Scanning for an address `b` different from the (unchanged) address of
the slot being overwritten is unaffected by the overwrite. -/
theorem findTokenAux_update_ne (f : Nat → Option TokenInfo) (idx : Nat)
    (told u : TokenInfo) (b : Nat) (hold : f idx = some told)
    (haddr : u.address = told.address) (hb : b ≠ told.address) :
    ∀ n j, findTokenAux (fun k => if k = idx then some u else f k) b j n =
      findTokenAux f b j n := by
  intro n
  induction n with
  | zero => intro j; rfl
  | succ n ih =>
    intro j
    by_cases hj : j = idx
    · subst hj
      have h1 : ¬ u.address = b := by rw [haddr]; exact fun h => hb h.symm
      have h2 : ¬ told.address = b := fun h => hb h.symm
      simp [findTokenAux, hold, h1, h2, ih (j + 1)]
    · cases hf : f j with
      | some t => simp [findTokenAux, hj, hf, ih (j + 1)]
      | none => simp [findTokenAux, hj, hf, ih (j + 1)]

/-!  Specification lemmas for `increment_burn_count`. -/

/-- On a hit, `increment_burn_count` is exactly: write the bumped record
back at the slot the scan found, then set the global burn count to its
successor. -/
theorem increment_burn_spec (s : Store) (a : Nat) (amt : Int) (ti : TokenInfo)
    (h : get_token_info_by_address s a = some ti) :
    ∃ idx, get_token_index s a = some idx ∧ get_token_info s idx = some ti ∧
      ti.address = a ∧ idx < get_token_count s ∧
      (∀ m, m < idx → ∀ t, get_token_info s m = some t → t.address ≠ a) ∧
      increment_burn_count s a amt =
        (s.setToken idx
          { ti with burn_count := ti.burn_count + 1
                    total_burned := ti.total_burned + amt }).setBurnCount
          (get_global_burn_count s + 1) := by
  obtain ⟨idx, h1, h2, h3, h4, h5⟩ := find_some_spec s a ti h
  refine ⟨idx, h1, h2, h3, h4, h5, ?_⟩
  rw [increment_burn_count, h, h1]
  rfl

/-- On a miss, `increment_burn_count` leaves the store untouched. -/
theorem increment_burn_miss (s : Store) (a : Nat) (amt : Int)
    (h : get_token_info_by_address s a = none) :
    increment_burn_count s a amt = s := by
  rw [increment_burn_count, h]

/-- After a hit, looking the token up again returns the bumped record, and
the global burn count went up by one. -/
theorem find_after_increment (s : Store) (a : Nat) (amt : Int) (ti : TokenInfo)
    (h : get_token_info_by_address s a = some ti) :
    get_token_info_by_address (increment_burn_count s a amt) a =
      some { ti with burn_count := ti.burn_count + 1
                     total_burned := ti.total_burned + amt } ∧
    get_global_burn_count (increment_burn_count s a amt) =
      get_global_burn_count s + 1 := by
  obtain ⟨idx, _, _, h3, h4, h5, h6⟩ := increment_burn_spec s a amt ti h
  rw [h6]
  constructor
  · exact findTokenAux_update_first s.token a idx
      { ti with burn_count := ti.burn_count + 1, total_burned := ti.total_burned + amt }
      h3 (get_token_count s) 0 (Nat.zero_le idx) (by omega)
      (fun m _ hm t ht => h5 m hm t ht)
  · rfl

/-- Looking up a different address after a hit-update is unaffected. -/
theorem find_other_after_increment (s : Store) (a : Nat) (amt : Int)
    (ti : TokenInfo) (b : Nat)
    (h : get_token_info_by_address s a = some ti) (hb : b ≠ a) :
    get_token_info_by_address (increment_burn_count s a amt) b =
      get_token_info_by_address s b := by
  obtain ⟨idx, _, h2, h3, _, _, h6⟩ := increment_burn_spec s a amt ti h
  rw [h6]
  show findTokenAux (fun k => if k = idx then some _ else s.token k) b 0
      (get_token_count s) = _
  rw [findTokenAux_update_ne s.token idx ti _ b h2 (by rw [h3]) (by rw [h3]; exact hb)]
  rfl

/-- Folding a list of burn amounts over `increment_burn_count` on a
registered token accumulates the exact sum and count. -/
theorem fold_increment_spec (a : Nat) :
    ∀ (amts : List Int) (s : Store) (ti : TokenInfo),
      get_token_info_by_address s a = some ti →
      get_token_info_by_address (amts.foldl (fun t x => increment_burn_count t a x) s) a =
        some { ti with burn_count := ti.burn_count + amts.length
                       total_burned := ti.total_burned + amts.sum } ∧
      get_global_burn_count (amts.foldl (fun t x => increment_burn_count t a x) s) =
        get_global_burn_count s + amts.length := by
  intro amts
  induction amts with
  | nil =>
    intro s ti h
    refine ⟨?_, rfl⟩
    simpa using h
  | cons x xs ih =>
    intro s ti h
    have h1 := find_after_increment s a x ti h
    have h2 := ih (increment_burn_count s a x) _ h1.1
    have hfold : (x :: xs).foldl (fun t y => increment_burn_count t a y) s =
        xs.foldl (fun t y => increment_burn_count t a y) (increment_burn_count s a x) := rfl
    constructor
    · rw [hfold, h2.1]
      simp only [Option.some.injEq, TokenInfo.mk.injEq, List.sum_cons, List.length_cons]
      exact ⟨trivial, trivial, trivial, trivial, trivial, trivial, trivial,
        by omega, by omega, trivial, trivial⟩
    · rw [hfold, h2.2, h1.2, List.length_cons]
      omega

/-!  Claim theorems. -/

set_option maxRecDepth 10000 in
/-- Claim C1 (evidence for the code bug): the claim says a call of
`update_token_supply` with `delta > total_supply` fails fatally with no
write.  The code uses `i128::checked_sub`, which only fails on i128
overflow, so at the concrete failing input (registered token with
`total_supply = 5`, `delta = 10 > 5`) the call completes and writes
`total_supply = -5` back at slot 0 — contradicting the claim and the
code's own message `Supply cannot go below zero`. -/
theorem c1_supply_goes_negative :
    (get_token_info oneTokenStore 0).map TokenInfo.total_supply = some 5 ∧
    (5 : Int) < 10 ∧
    (update_token_supply oneTokenStore 7 10).isSome = true ∧
    (update_token_supply oneTokenStore 7 10).map
      (fun s2 => (get_token_info s2 0).map TokenInfo.total_supply) =
      some (some (-5)) := by
  decide

/-- Claim C2 counterexample: starting from the empty store, one single
`add_burn_record` call has been made, yet both `get_global_burn_count` and
`get_burn_record_count` still report 0, not 1 — the claim that each
`add_burn_record` call increases both counts by one is false. -/
theorem c2_counterexample :
    get_global_burn_count (add_burn_record emptyStore recX) = 0 ∧
    get_burn_record_count (add_burn_record emptyStore recX) = 0 ∧
    get_global_burn_count (add_burn_record emptyStore recX) ≠ 1 := by
  decide

/-- Claim C2 (amended): `get_burn_record_count` always equals
`get_global_burn_count`, but `add_burn_record` changes neither; the
counters are advanced — by exactly one per call — by
`increment_burn_count` on a registered token instead. -/
theorem c2_counts_amended (s : Store) (r : BurnRecord) (a : Nat) (amt : Int)
    (ti : TokenInfo) (h : get_token_info_by_address s a = some ti) :
    get_burn_record_count s = get_global_burn_count s ∧
    get_global_burn_count (add_burn_record s r) = get_global_burn_count s ∧
    get_burn_record_count (add_burn_record s r) = get_burn_record_count s ∧
    get_global_burn_count (increment_burn_count s a amt) =
      get_global_burn_count s + 1 ∧
    get_burn_record_count (increment_burn_count s a amt) =
      get_burn_record_count s + 1 :=
  ⟨rfl, rfl, rfl, (find_after_increment s a amt ti h).2,
    (find_after_increment s a amt ti h).2⟩

/-- Witness for the amended C2 at a concrete registered token. -/
theorem c2_witness :
    get_burn_record_count oneTokenStore = get_global_burn_count oneTokenStore ∧
    get_global_burn_count (add_burn_record oneTokenStore recX) =
      get_global_burn_count oneTokenStore ∧
    get_burn_record_count (add_burn_record oneTokenStore recX) =
      get_burn_record_count oneTokenStore ∧
    get_global_burn_count (increment_burn_count oneTokenStore 7 3) =
      get_global_burn_count oneTokenStore + 1 ∧
    get_burn_record_count (increment_burn_count oneTokenStore 7 3) =
      get_burn_record_count oneTokenStore + 1 :=
  c2_counts_amended oneTokenStore recX 7 3 tokA rfl

/-- Claim C3 counterexample: recording a burn against the unregistered
address 5 in the empty store is not a silent no-op — `add_burn_record`
still writes the record, observably: `get_burn_record` at index 0 changes
from `none` to `some recX`. -/
theorem c3_counterexample :
    get_token_info_by_address emptyStore 5 = none ∧
    get_burn_record emptyStore 0 = none ∧
    get_burn_record (add_burn_record (increment_burn_count emptyStore 5 3) recX) 0 =
      some recX := by
  decide

/-- Claim C3 (amended): recording a burn against an unregistered address
leaves the global burn count, every token record, the token count and
every ledger slot below `get_global_burn_count` unchanged; however the
burn record is still written at slot `get_global_burn_count` (outside the
dense ledger prefix, to be overwritten by the next accounted burn). -/
theorem c3_unknown_token (s : Store) (d : Nat) (amt : Int) (r : BurnRecord)
    (h : get_token_info_by_address s d = none) :
    get_global_burn_count (add_burn_record (increment_burn_count s d amt) r) =
      get_global_burn_count s ∧
    get_burn_record_count (add_burn_record (increment_burn_count s d amt) r) =
      get_burn_record_count s ∧
    (∀ i, get_token_info (add_burn_record (increment_burn_count s d amt) r) i =
      get_token_info s i) ∧
    get_token_count (add_burn_record (increment_burn_count s d amt) r) =
      get_token_count s ∧
    (∀ k, k < get_global_burn_count s →
      get_burn_record (add_burn_record (increment_burn_count s d amt) r) k =
        get_burn_record s k) ∧
    get_burn_record (add_burn_record (increment_burn_count s d amt) r)
      (get_global_burn_count s) = some r := by
  rw [increment_burn_miss s d amt h]
  refine ⟨rfl, rfl, fun i => rfl, rfl, ?_, ?_⟩
  · intro k hk
    simp only [get_burn_record, add_burn_record, Store.setBurnRecord]
    rw [if_neg (by omega)]
  · simp [get_burn_record, add_burn_record, Store.setBurnRecord]

/-- Witness for the amended C3 at a concrete unregistered address. -/
theorem c3_witness :
    get_global_burn_count (add_burn_record (increment_burn_count emptyStore 5 3) recX) = 0 ∧
    get_burn_record (add_burn_record (increment_burn_count emptyStore 5 3) recX) 0 =
      some recX := by
  have h := c3_unknown_token emptyStore 5 3 recX rfl
  exact ⟨h.1, h.2.2.2.2.2⟩

/-- Claim C4 counterexample: `increment_burn_count` with the negative
amount -3 strictly decreases `total_burned` of the registered token
(10 down to 7) — with an arbitrary i128 amount the field is not
monotonically non-decreasing. -/
theorem c4_counterexample :
    get_total_burned (increment_burn_count oneTokenStore 7 (-3)) 7 <
      get_total_burned oneTokenStore 7 := by
  decide

/-- Claim C4 (amended): `total_burned` of every token is non-decreasing
under `increment_burn_count` whenever the burn amount is non-negative
(no other operation of the layer alters `total_burned`). -/
theorem c4_monotone_nonneg (s : Store) (a : Nat) (amt : Int)
    (hamt : 0 ≤ amt) (b : Nat) :
    get_total_burned s b ≤ get_total_burned (increment_burn_count s a amt) b := by
  cases hf : get_token_info_by_address s a with
  | none =>
    rw [increment_burn_miss s a amt hf]
  | some ti =>
    by_cases hb : b = a
    · subst hb
      have h1 := (find_after_increment s b amt ti hf).1
      simp only [get_total_burned, h1, hf]
      omega
    · have h2 := find_other_after_increment s a amt ti b hf hb
      simp only [get_total_burned, h2]
      exact le_refl _

/-- Witness for the amended C4 at a concrete non-negative amount. -/
theorem c4_witness :
    get_total_burned oneTokenStore 7 ≤
      get_total_burned (increment_burn_count oneTokenStore 7 3) 7 :=
  c4_monotone_nonneg oneTokenStore 7 3 (by decide) 7

/-- Claim C5: on a registered token, `increment_burn_count` bumps the
token's `burn_count` by exactly 1 and `total_burned` by exactly the
amount, writes the updated record back at the token's slot, and bumps the
global burn count by exactly 1; over any sequence of such calls the token
accumulates the exact sum of the amounts and the exact number of calls. -/
theorem c5_increment_exact (s : Store) (a : Nat) (amt : Int) (ti : TokenInfo)
    (h : get_token_info_by_address s a = some ti) :
    get_burn_count (increment_burn_count s a amt) a = ti.burn_count + 1 ∧
    get_total_burned (increment_burn_count s a amt) a = ti.total_burned + amt ∧
    get_global_burn_count (increment_burn_count s a amt) =
      get_global_burn_count s + 1 ∧
    (∃ idx, get_token_index s a = some idx ∧ get_token_info s idx = some ti ∧
      get_token_info (increment_burn_count s a amt) idx =
        some { ti with burn_count := ti.burn_count + 1
                       total_burned := ti.total_burned + amt }) ∧
    (∀ amts : List Int,
      get_total_burned (amts.foldl (fun t x => increment_burn_count t a x) s) a =
        ti.total_burned + amts.sum ∧
      get_burn_count (amts.foldl (fun t x => increment_burn_count t a x) s) a =
        ti.burn_count + amts.length ∧
      get_global_burn_count (amts.foldl (fun t x => increment_burn_count t a x) s) =
        get_global_burn_count s + amts.length) := by
  have hfa := find_after_increment s a amt ti h
  obtain ⟨idx, h1, h2, _, _, _, h6⟩ := increment_burn_spec s a amt ti h
  refine ⟨?_, ?_, hfa.2, ⟨idx, h1, h2, ?_⟩, ?_⟩
  · simp only [get_burn_count, hfa.1]
  · simp only [get_total_burned, hfa.1]
  · rw [h6]
    simp [get_token_info, Store.setToken, Store.setBurnCount]
  · intro amts
    have hf := fold_increment_spec a amts s ti h
    refine ⟨?_, ?_, hf.2⟩
    · simp only [get_total_burned, hf.1]
    · simp only [get_burn_count, hf.1]

/-- Witness for C5 at a concrete registered token: burn count 2 goes to 3,
total burned 10 goes to 13, global burn count 0 goes to 1. -/
theorem c5_witness :
    get_burn_count (increment_burn_count oneTokenStore 7 3) 7 = 3 ∧
    get_total_burned (increment_burn_count oneTokenStore 7 3) 7 = 13 ∧
    get_global_burn_count (increment_burn_count oneTokenStore 7 3) = 1 := by
  have h := c5_increment_exact oneTokenStore 7 3 tokA rfl
  exact ⟨h.1, h.2.1, h.2.2.1⟩

/-- Claim C6: `update_token_supply` (on every completed execution) and
`increment_burn_count` leave the token count, every burn record, and every
token slot other than the one the address scan picks unchanged — both on
the success path and on the not-found no-op path. -/
theorem c6_frame (s : Store) (a : Nat) (delta amt : Int) (s1 : Store)
    (h : update_token_supply s a delta = some s1) :
    (get_token_count s1 = get_token_count s ∧
     get_global_burn_count s1 = get_global_burn_count s ∧
     (∀ k, get_burn_record s1 k = get_burn_record s k) ∧
     (∀ j, get_token_index s a ≠ some j → get_token_info s1 j = get_token_info s j)) ∧
    (get_token_count (increment_burn_count s a amt) = get_token_count s ∧
     (∀ k, get_burn_record (increment_burn_count s a amt) k = get_burn_record s k) ∧
     (∀ j, get_token_index s a ≠ some j →
        get_token_info (increment_burn_count s a amt) j = get_token_info s j)) := by
  constructor
  · cases hf : get_token_info_by_address s a with
    | none =>
      simp only [update_token_supply, hf, Option.some.injEq] at h
      subst h
      exact ⟨rfl, rfl, fun k => rfl, fun j _ => rfl⟩
    | some ti =>
      cases hc : i128_checked_sub ti.total_supply delta with
      | none =>
        simp only [update_token_supply, hf, hc] at h
        exact Option.noConfusion h
      | some v =>
        cases hi : get_token_index s a with
        | none =>
          simp only [update_token_supply, hf, hc, hi, Option.some.injEq] at h
          subst h
          exact ⟨rfl, rfl, fun k => rfl, fun j _ => rfl⟩
        | some idx =>
          simp only [update_token_supply, hf, hc, hi, Option.some.injEq] at h
          subst h
          refine ⟨rfl, rfl, fun k => rfl, ?_⟩
          intro j hj
          have hji : j ≠ idx := fun hh => hj (by rw [hh])
          simp only [get_token_info, Store.setToken]
          rw [if_neg hji]
  · cases hf : get_token_info_by_address s a with
    | none =>
      rw [increment_burn_miss s a amt hf]
      exact ⟨rfl, fun k => rfl, fun j _ => rfl⟩
    | some ti =>
      obtain ⟨idx, h1, _, _, _, _, h6⟩ := increment_burn_spec s a amt ti hf
      rw [h6]
      refine ⟨rfl, fun k => rfl, ?_⟩
      intro j hj
      have hji : j ≠ idx := by
        intro hh
        rw [hh] at hj
        exact hj h1
      simp only [get_token_info, Store.setToken, Store.setBurnCount]
      rw [if_neg hji]

set_option maxRecDepth 10000 in
/-- Witness for C6: updating token 7 (slot 0) of the two-token store
leaves slot 1 and the pre-existing burn record untouched. -/
theorem c6_witness :
    (update_token_supply twoTokenStore 7 2).map (fun s2 => get_token_info s2 1) =
      some (some tokB) ∧
    get_token_info (increment_burn_count twoTokenStore 7 3) 1 = some tokB ∧
    get_burn_record (increment_burn_count twoTokenStore 7 3) 0 = some recX := by
  obtain ⟨s1, hs1⟩ : ∃ s2, update_token_supply twoTokenStore 7 2 = some s2 := ⟨_, rfl⟩
  have h := c6_frame twoTokenStore 7 2 3 s1 hs1
  refine ⟨?_, ?_, ?_⟩
  · rw [hs1]
    show some (get_token_info s1 1) = some (some tokB)
    rw [h.1.2.2.2 1 (by decide)]
    rfl
  · rw [h.2.2.2 1 (by decide)]
    rfl
  · rw [h.2.2.1 0]
    rfl

/-- Claim C7: the address lookup returns the record of the lowest-indexed
slot in `0..get_token_count` whose address equals the query, and returns
absence exactly when no slot in that range matches.  (In the embedding the
lookup is a pure function of the store, so it has no side effects by
construction.) -/
theorem c7_find_by_address_spec (s : Store) (a : Nat) (ti : TokenInfo) :
    (get_token_info_by_address s a = some ti ↔
      ∃ i, i < get_token_count s ∧ get_token_info s i = some ti ∧ ti.address = a ∧
        ∀ j, j < i → ∀ t, get_token_info s j = some t → t.address ≠ a) ∧
    (get_token_info_by_address s a = none ↔
      ∀ i, i < get_token_count s → ∀ t, get_token_info s i = some t → t.address ≠ a) := by
  refine ⟨⟨?_, ?_⟩, find_none_iff s a⟩
  · intro h
    obtain ⟨i, _, h2, h3, h4, h5⟩ := find_some_spec s a ti h
    exact ⟨i, h4, h2, h3, h5⟩
  · rintro ⟨i, hi, h2, h3, h4⟩
    rcases findAux_rel s.token a (get_token_count s) 0 with ⟨_, _, hno⟩ |
      ⟨i', ti', _, hfind', hfi', haddr', _, hlt', hmin'⟩
    · exact absurd h3 (hno i (Nat.zero_le i) (by omega) ti h2)
    · have hii : i' = i := by
        rcases Nat.lt_trichotomy i' i with hlt | heq | hgt
        · exact absurd haddr' (h4 i' hlt ti' hfi')
        · exact heq
        · exact absurd h3 (hmin' i (Nat.zero_le i) hgt ti h2)
      subst hii
      have hti : ti' = ti := by
        have hfi2 : get_token_info s i' = some ti' := hfi'
        rw [h2] at hfi2
        exact (Option.some.inj hfi2).symm
      subst hti
      exact hfind'

/-- Witness for C7: in the two-token store the scan finds `tokB` (slot 1)
for address 9 and nothing for address 11. -/
theorem c7_witness :
    get_token_info_by_address twoTokenStore 9 = some tokB ∧
    get_token_info_by_address twoTokenStore 11 = none := by
  constructor
  · refine (c7_find_by_address_spec twoTokenStore 9 tokB).1.mpr ⟨1, by decide, rfl, rfl, ?_⟩
    intro j hj t ht
    have hj0 : j = 0 := by omega
    subst hj0
    have h5 : (some tokA : Option TokenInfo) = some t := ht
    injection h5 with h5
    subst h5
    decide
  · refine (c7_find_by_address_spec twoTokenStore 11 tokB).2.mpr ?_
    intro i hi t ht
    have : i = 0 ∨ i = 1 := by
      have : get_token_count twoTokenStore = 2 := rfl
      omega
    rcases this with rfl | rfl
    · have h5 : (some tokA : Option TokenInfo) = some t := ht
      injection h5 with h5
      subst h5
      decide
    · have h5 : (some tokB : Option TokenInfo) = some t := ht
      injection h5 with h5
      subst h5
      decide

/-- Claim C8: round-trip — `add_burn_record` writes at index
`get_global_burn_count`, and reading that index back returns the record;
writing a token record at slot `i` and reading slot `i` via
`get_token_info` returns the same record. -/
theorem c8_roundtrip (s : Store) (r : BurnRecord) (i : Nat) (t : TokenInfo) :
    get_burn_record (add_burn_record s r) (get_global_burn_count s) = some r ∧
    get_token_info (Store.setToken s i t) i = some t := by
  constructor
  · simp [get_burn_record, add_burn_record, Store.setBurnRecord]
  · simp [get_token_info, Store.setToken]

/-- Claim C9: `add_burn_record` writes at index `get_global_burn_count`
and leaves that count unchanged, so a second `add_burn_record` with no
intervening count increment overwrites the first record at the same
index. -/
theorem c9_no_count_advance (s : Store) (r r2 : BurnRecord) :
    get_global_burn_count (add_burn_record s r) = get_global_burn_count s ∧
    get_burn_record (add_burn_record s r) (get_global_burn_count s) = some r ∧
    get_burn_record (add_burn_record (add_burn_record s r) r2)
      (get_global_burn_count s) = some r2 := by
  refine ⟨rfl, ?_, ?_⟩
  · simp [get_burn_record, add_burn_record, Store.setBurnRecord]
  · simp [get_burn_record, add_burn_record, Store.setBurnRecord,
      get_global_burn_count, Store.setBurnCount]

/-- Claim C10: whenever the record scan succeeds, the index scan succeeds
on the same address and names a slot holding exactly that record (both
scans pick the lowest-indexed match), so the write-backs of
`increment_burn_count` and `update_token_supply` store the mutated record
at the slot it was read from. -/
theorem c10_index_matches_find (s : Store) (a : Nat) (info : TokenInfo)
    (h : get_token_info_by_address s a = some info) :
    ∃ i, get_token_index s a = some i ∧ get_token_info s i = some info := by
  obtain ⟨i, h1, h2, _, _, _⟩ := find_some_spec s a info h
  exact ⟨i, h1, h2⟩

/-- Witness for C10 in the two-token store: address 9 resolves to slot 1
holding `tokB`. -/
theorem c10_witness :
    get_token_index twoTokenStore 9 = some 1 ∧
    get_token_info twoTokenStore 1 = some tokB := by
  obtain ⟨i, h1, h2⟩ := c10_index_matches_find twoTokenStore 9 tokB rfl
  have h0 : (some 1 : Option Nat) = some i := h1
  injection h0 with h0
  subst h0
  exact ⟨h1, h2⟩
